import Mathlib

set_option autoImplicit false

/-
A shallow embedding of the reconciliation core of `src/server.js`
(HubSpot ↔ Monday.com ticket synchronisation server).

The embedding models:
  * the in-memory configuration object (`config`), its field rules
    (source-of-truth per logical field) and its field mapping
    (logical field → Monday column id);
  * the record shapes exchanged with the two platforms;
  * the identity index built with `Map.set`/`Map.get`
    (`mondayMap` / `hubspotMap` in the source);
  * the per-record create/update decision of `syncHubSpotToMonday`
    and `syncMondayToHubSpot`;
  * the payload construction of `createMondayItem`, `updateMondayItem`,
    `createHubSpotTicket` and `updateHubSpotTicket`;
  * the execution of a one-direction pass, including the logging and
    the exception flow (`try`/`catch` wraps the whole pass body, so the
    first rejected remote call aborts the remainder of the pass), with
    the remote collaborator behaviour supplied as an oracle.

JavaScript `undefined` on string-valued fields is modelled as
`Option String` with `none` for `undefined`/`null`; JS truthiness of
such a value is `truthy` below.
-/

namespace HubSpotMondaySync

/-- JS truthiness of an optional string value: `undefined`, `null` and `""` are falsy. -/
def truthy : Option String → Bool
  | none => false
  | some s => s ≠ ""

/-- JS `v || dflt` on an optional string value: the default is taken when `v` is falsy. -/
def jsOr (v : Option String) (dflt : String) : String :=
  match v with
  | none => dflt
  | some s => if s = "" then dflt else s

/-- JS string interpolation of a possibly-undefined value. -/
def optStr : Option String → String
  | none => "undefined"
  | some s => s

/-- `config.fieldRules` of `server.js` (lines 20-26): per logical field, which
platform is the source of truth, as the strings "hubspot", "monday" or "both". -/
structure FieldRules where
  title : String
  description : String
  status : String
  priority : String
  assignee : String
  deriving DecidableEq

/-- The startup value of `config.fieldRules`. -/
def defaultFieldRules : FieldRules :=
  { title := "hubspot", description := "hubspot", status := "monday",
    priority := "monday", assignee := "both" }

/-- `config.fieldMapping` of `server.js` (lines 28-33): which Monday column id
each logical field is written to. -/
structure FieldMapping where
  description : String
  status : String
  priority : String
  assignee : String
  deriving DecidableEq

/-- The startup value of `config.fieldMapping`. -/
def defaultFieldMapping : FieldMapping :=
  { description := "text", status := "status", priority := "priority", assignee := "person" }

/-- The part of the `config` object read by the sync functions. -/
structure Config where
  hubspotToken : String
  mondayToken : String
  mondayBoardId : String
  syncEnabled : Bool
  fieldRules : FieldRules
  fieldMapping : FieldMapping
  deriving DecidableEq

/-- A HubSpot ticket as fetched by `getHubSpotTickets` (id plus the requested
properties; any property may be absent). -/
structure HubSpotTicket where
  id : String
  subject : Option String
  content : Option String
  hs_pipeline_stage : Option String
  hs_ticket_priority : Option String
  deriving DecidableEq

/-- One entry of a Monday item's `column_values` (the `text` of a column may be null). -/
structure ColumnValue where
  id : String
  text : Option String
  deriving DecidableEq

/-- A Monday board item as fetched by `getMondayItems`. -/
structure MondayItem where
  id : String
  name : String
  column_values : List ColumnValue
  deriving DecidableEq

/-- The normalised record (`ticketData` / `itemData` in the source) holding the
four logical fields; the identity key is `subject`. -/
structure TicketData where
  subject : Option String
  content : Option String
  status : Option String
  priority : Option String
  deriving DecidableEq

/-- `ticketData` built from a HubSpot ticket in `syncHubSpotToMonday` (lines 308-313). -/
def ticketDataOf (t : HubSpotTicket) : TicketData :=
  { subject := t.subject, content := t.content,
    status := t.hs_pipeline_stage, priority := t.hs_ticket_priority }

/-- `item.column_values.find(col => col.id === colId)`. -/
def findColumn (cols : List ColumnValue) (colId : String) : Option ColumnValue :=
  cols.find? (fun col => col.id == colId)

/-- `itemData` built from a Monday item in `syncMondayToHubSpot` (lines 375-384):
column values are resolved through the field mapping, with JS `||` defaults. -/
def itemDataOf (fm : FieldMapping) (item : MondayItem) : TicketData :=
  let textCol := findColumn item.column_values fm.description
  let statusCol := findColumn item.column_values fm.status
  let priorityCol := findColumn item.column_values fm.priority
  { subject := some item.name,
    content := some (jsOr (textCol.bind ColumnValue.text) ""),
    status := some (jsOr (statusCol.bind ColumnValue.text) "new"),
    priority := some (jsOr (priorityCol.bind ColumnValue.text) "MEDIUM") }

section MapModel

variable {α : Type}

/-- Semantics of building a JS `Map` by iterating `map.set(keyOf x, x)` over a
sequence and then calling `map.get(k)`: the last element whose key equals `k`
wins.  `keyOf` returns `Option String` because `ticket.properties.subject` may
be `undefined`. -/
def mapGetBy (keyOf : α → Option String) (l : List α) (k : String) : Option α :=
  l.foldl (fun acc x => if keyOf x = some k then some x else acc) none

theorem mapGetBy_foldl_acc (keyOf : α → Option String) (k : String) :
    ∀ (l : List α) (a : Option α),
      l.foldl (fun acc x => if keyOf x = some k then some x else acc) a =
        match mapGetBy keyOf l k with
        | some y => some y
        | none => a := by
  intro l
  induction l with
  | nil => intro a; rfl
  | cons x xs ih =>
    intro a
    simp only [mapGetBy, List.foldl_cons] at ih ⊢
    rw [ih (if keyOf x = some k then some x else a),
        ih (if keyOf x = some k then some x else none)]
    by_cases hx : keyOf x = some k <;>
      cases hF : List.foldl (fun acc x => if keyOf x = some k then some x else acc) none xs <;>
        simp [hx, hF]

theorem mapGetBy_cons (keyOf : α → Option String) (k : String) (x : α) (xs : List α) :
    mapGetBy keyOf (x :: xs) k =
      match mapGetBy keyOf xs k with
      | some y => some y
      | none => if keyOf x = some k then some x else none := by
  simp only [mapGetBy, List.foldl_cons]
  rw [mapGetBy_foldl_acc keyOf k xs (if keyOf x = some k then some x else none)]
  simp only [mapGetBy]

theorem mapGetBy_append (keyOf : α → Option String) (k : String) (l₁ l₂ : List α) :
    mapGetBy keyOf (l₁ ++ l₂) k =
      match mapGetBy keyOf l₂ k with
      | some y => some y
      | none => mapGetBy keyOf l₁ k := by
  simp only [mapGetBy, List.foldl_append]
  rw [mapGetBy_foldl_acc keyOf k l₂
        (List.foldl (fun acc x => if keyOf x = some k then some x else acc) none l₁)]
  simp only [mapGetBy]

theorem mapGetBy_eq_some (keyOf : α → Option String) (k : String) :
    ∀ (l : List α) (x : α), mapGetBy keyOf l k = some x → x ∈ l ∧ keyOf x = some k := by
  intro l
  induction l with
  | nil => intro x h; simp [mapGetBy] at h
  | cons y ys ih =>
    intro x h
    rw [mapGetBy_cons] at h
    cases hys : mapGetBy keyOf ys k with
    | none =>
      rw [hys] at h
      simp only at h
      by_cases hy : keyOf y = some k
      · rw [if_pos hy] at h
        cases h
        exact ⟨List.mem_cons_self _ _, hy⟩
      · rw [if_neg hy] at h
        cases h
    | some z =>
      rw [hys] at h
      simp only at h
      cases h
      rcases ih _ hys with ⟨hmem, hkey⟩
      exact ⟨List.mem_cons_of_mem _ hmem, hkey⟩

theorem mapGetBy_eq_none_of_not_mem (keyOf : α → Option String) (k : String) :
    ∀ (l : List α), (∀ x ∈ l, keyOf x ≠ some k) → mapGetBy keyOf l k = none := by
  intro l
  induction l with
  | nil => intro _; rfl
  | cons y ys ih =>
    intro h
    rw [mapGetBy_cons, ih (fun x hx => h x (List.mem_cons_of_mem _ hx))]
    simp only
    rw [if_neg (h y (List.mem_cons_self _ _))]

theorem mapGetBy_isSome_of_mem (keyOf : α → Option String) (k : String) :
    ∀ (l : List α) (x : α), x ∈ l → keyOf x = some k → (mapGetBy keyOf l k).isSome := by
  intro l
  induction l with
  | nil => intro x hx; cases hx
  | cons y ys ih =>
    intro x hx hk
    rw [mapGetBy_cons]
    cases hys : mapGetBy keyOf ys k with
    | none =>
      rcases List.mem_cons.mp hx with h | h
      · subst h
        simp only
        rw [if_pos hk]
        rfl
      · have hsome := ih x h hk
        rw [hys] at hsome
        cases hsome
    | some z => rfl

end MapModel

/-- The `mondayMap` of `syncHubSpotToMonday` (lines 299-302): index of Monday
items by `item.name`, later occurrences overwriting earlier ones. -/
def mondayMapGet (items : List MondayItem) (key : String) : Option MondayItem :=
  mapGetBy (fun item => some item.name) items key

/-- The `hubspotMap` of `syncMondayToHubSpot` (lines 365-368): index of HubSpot
tickets by `ticket.properties.subject` (which may be `undefined`). -/
def hubspotMapGet (tickets : List HubSpotTicket) (key : String) : Option HubSpotTicket :=
  mapGetBy HubSpotTicket.subject tickets key

/-- `mondayMap.get(ticketData.subject)` where the subject may be `undefined`:
a `Map.get(undefined)` never matches an item (item names are strings). -/
def mondayMapLookup (items : List MondayItem) : Option String → Option MondayItem
  | none => none
  | some s => mondayMapGet items s

/-- The `updateData` object built in `syncHubSpotToMonday` (lines 324-338): one
entry per logical field whose rule is `'hubspot'` or `'both'`, carrying the
(possibly undefined) source value.  Entries are JS object keys in insertion
order. -/
def mondayUpdateData (rules : FieldRules) (d : TicketData) : List (String × Option String) :=
  (if rules.title = "hubspot" ∨ rules.title = "both" then [("subject", d.subject)] else []) ++
  (if rules.description = "hubspot" ∨ rules.description = "both" then [("content", d.content)] else []) ++
  (if rules.status = "hubspot" ∨ rules.status = "both" then [("status", d.status)] else []) ++
  (if rules.priority = "hubspot" ∨ rules.priority = "both" then [("priority", d.priority)] else [])

/-- The `updateData` object built in `syncMondayToHubSpot` (lines 395-409): one
entry per logical field whose rule is `'monday'` or `'both'`. -/
def hubspotUpdateData (rules : FieldRules) (d : TicketData) : List (String × Option String) :=
  (if rules.title = "monday" ∨ rules.title = "both" then [("subject", d.subject)] else []) ++
  (if rules.description = "monday" ∨ rules.description = "both" then [("content", d.content)] else []) ++
  (if rules.status = "monday" ∨ rules.status = "both" then [("status", d.status)] else []) ++
  (if rules.priority = "monday" ∨ rules.priority = "both" then [("priority", d.priority)] else [])

/-- The keys of a JS object represented as an association list (`Object.keys`). -/
def keysOf (u : List (String × Option String)) : List String :=
  u.map Prod.fst

/-- Property access `u.key` on a JS object represented as an association list:
a missing key reads as `undefined` (`none`), as does a key stored with an
`undefined` value. -/
def jsGet (u : List (String × Option String)) (key : String) : Option String :=
  match u.find? (fun p => p.fst == key) with
  | none => none
  | some p => p.snd

/-- The `columnValues` object of `createMondayItem` (lines 238-247): a field is
written only when the source value is truthy and its mapped column id is truthy;
absent or empty fields are silently omitted (no default is injected). -/
def createMondayColumnValues (fm : FieldMapping) (d : TicketData) : List (String × String) :=
  (if truthy d.content = true ∧ fm.description ≠ "" then [(fm.description, jsOr d.content "")] else []) ++
  (if truthy d.status = true ∧ fm.status ≠ "" then [(fm.status, jsOr d.status "")] else []) ++
  (if truthy d.priority = true ∧ fm.priority ≠ "" then [(fm.priority, jsOr d.priority "")] else [])

/-- The `columnValues` object of `updateMondayItem` (lines 267-277): a field is
written when it is present (not `undefined`) in the update data and its mapped
column id is truthy.  Note the item name (`subject`) is never written here. -/
def updateMondayColumnValues (fm : FieldMapping) (u : List (String × Option String)) :
    List (String × String) :=
  (match jsGet u "content" with
   | some v => if fm.description ≠ "" then [(fm.description, v)] else []
   | none => []) ++
  (match jsGet u "status" with
   | some v => if fm.status ≠ "" then [(fm.status, v)] else []
   | none => []) ++
  (match jsGet u "priority" with
   | some v => if fm.priority ≠ "" then [(fm.priority, v)] else []
   | none => [])

/-- The `properties` object of `createHubSpotTicket` (lines 137-142): subject and
content are passed through while absent status and priority fall back to
`'new'` and `'MEDIUM'` via JS `||`. -/
def createHubSpotProperties (d : TicketData) : List (String × Option String) :=
  [("subject", d.subject),
   ("content", d.content),
   ("hs_pipeline_stage", some (jsOr d.status "new")),
   ("hs_ticket_priority", some (jsOr d.priority "MEDIUM"))]

/-- The `properties` object of `updateHubSpotTicket` (lines 159-163): only the
fields present in the update data are written, renamed to HubSpot property names. -/
def updateHubSpotProperties (u : List (String × Option String)) : List (String × String) :=
  (match jsGet u "subject" with | some v => [("subject", v)] | none => []) ++
  (match jsGet u "content" with | some v => [("content", v)] | none => []) ++
  (match jsGet u "status" with | some v => [("hs_pipeline_stage", v)] | none => []) ++
  (match jsGet u "priority" with | some v => [("hs_ticket_priority", v)] | none => [])

/-- The keys of a string-valued payload object. -/
def payloadKeys (l : List (String × String)) : List String :=
  l.map Prod.fst

/-- The decision taken for one source record in a pass: create the target
record (with the full normalised data), update an existing target record with a
field subset, or skip it. -/
inductive PlanAction where
  | createItem (d : TicketData)
  | updateItem (targetId : String) (fields : List (String × Option String))
  | skip (subject : Option String)
  deriving DecidableEq

/-- The decision of the loop body of `syncHubSpotToMonday` (lines 307-347) for
one HubSpot ticket: unmatched tickets are created with the full `ticketData`;
matched tickets are updated with `updateData` when it is non-empty, else skipped. -/
def planTicket (rules : FieldRules) (items : List MondayItem) (t : HubSpotTicket) : PlanAction :=
  let d := ticketDataOf t
  match mondayMapLookup items d.subject with
  | none => PlanAction.createItem d
  | some item =>
    let u := mondayUpdateData rules d
    if u.length > 0 then PlanAction.updateItem item.id u else PlanAction.skip d.subject

/-- The full create/update plan of one HubSpot → Monday pass. -/
def hubspotToMondayPlan (rules : FieldRules) (tickets : List HubSpotTicket)
    (items : List MondayItem) : List PlanAction :=
  tickets.map (planTicket rules items)

/-- The decision of the loop body of `syncMondayToHubSpot` (lines 373-418) for
one Monday item. -/
def planItem (rules : FieldRules) (fm : FieldMapping) (tickets : List HubSpotTicket)
    (item : MondayItem) : PlanAction :=
  let d := itemDataOf fm item
  match hubspotMapGet tickets item.name with
  | none => PlanAction.createItem d
  | some t =>
    let u := hubspotUpdateData rules d
    if u.length > 0 then PlanAction.updateItem t.id u else PlanAction.skip d.subject

/-- The full create/update plan of one Monday → HubSpot pass. -/
def mondayToHubspotPlan (rules : FieldRules) (fm : FieldMapping)
    (items : List MondayItem) (tickets : List HubSpotTicket) : List PlanAction :=
  items.map (planItem rules fm tickets)

/-- One entry appended by `logSync` (lines 44-53): a message plus a severity
type (`info`, `success` or `error`). -/
structure LogEntry where
  message : String
  type : String
  deriving DecidableEq

/-- A remote call performed by a pass: the two snapshot fetches and the four
mutation calls, with the payloads actually sent. -/
inductive Event where
  | fetchHubSpotTickets
  | fetchMondayItems
  | createMondayItemCall (itemName : Option String) (columnValues : List (String × String))
  | updateMondayItemCall (itemId : String) (columnValues : List (String × String))
  | createHubSpotTicketCall (properties : List (String × Option String))
  | updateHubSpotTicketCall (ticketId : String) (properties : List (String × String))
  deriving DecidableEq

/-- The behaviour of the two remote platforms during a pass, supplied as an
oracle: each call either returns data (`ok`) or rejects (`error message`),
exactly the two outcomes the `async` helpers of `server.js` can produce. -/
structure Remote where
  ticketsResult : Except String (List HubSpotTicket)
  itemsResult : Except String (List MondayItem)
  createItemResult : Option String → List (String × String) → Except String String
  updateItemResult : String → List (String × String) → Except String Unit
  createTicketResult : List (String × Option String) → Except String String
  updateTicketResult : String → List (String × String) → Except String Unit

/-- The pass-level catch entry `logSync('Sync failed: ...', 'error')`
(lines 351-353 and 422-424). -/
def syncFailedLog (e : String) : LogEntry :=
  { message := "Sync failed: " ++ e, type := "error" }

/-- The error entry of `getHubSpotTickets` (line 129). -/
def fetchTicketsErrorLog (e : String) : LogEntry :=
  { message := "Error fetching HubSpot tickets: " ++ e, type := "error" }

/-- The error entry of `mondayQuery` (line 200), hit by every Monday API call. -/
def mondayApiErrorLog (e : String) : LogEntry :=
  { message := "Monday.com API error: " ++ e, type := "error" }

/-- The error entry of `createHubSpotTicket` (line 151). -/
def createTicketErrorLog (e : String) : LogEntry :=
  { message := "Error creating HubSpot ticket: " ++ e, type := "error" }

/-- The error entry of `updateHubSpotTicket` (line 175). -/
def updateTicketErrorLog (e : String) : LogEntry :=
  { message := "Error updating HubSpot ticket: " ++ e, type := "error" }

/-- The `for (const ticket of tickets)` loop of `syncHubSpotToMonday`
(lines 307-347), run against the remote oracle.  Each iteration `await`s its
remote mutation; a rejection is NOT caught inside the loop, so it ends the
recursion with `Except.error` after logging only the helper-level entry of
`mondayQuery`. Returns the events emitted, the log entries appended
(chronological order) and either the first uncaught error or the final
`(created, updated)` counters. -/
def processTickets (rules : FieldRules) (fm : FieldMapping) (r : Remote)
    (items : List MondayItem) :
    List HubSpotTicket → Nat → Nat → List Event × List LogEntry × Except String (Nat × Nat)
  | [], created, updated => ([], [], Except.ok (created, updated))
  | t :: rest, created, updated =>
    let d := ticketDataOf t
    match mondayMapLookup items d.subject with
    | none =>
      let cols := createMondayColumnValues fm d
      match r.createItemResult d.subject cols with
      | Except.error e =>
        ([Event.createMondayItemCall d.subject cols], [mondayApiErrorLog e], Except.error e)
      | Except.ok _ =>
        let res := processTickets rules fm r items rest (created + 1) updated
        (Event.createMondayItemCall d.subject cols :: res.1,
         { message := "Created Monday item: " ++ optStr d.subject,
           type := "success" } :: res.2.1,
         res.2.2)
    | some item =>
      let u := mondayUpdateData rules d
      if u.length > 0 then
        let cols := updateMondayColumnValues fm u
        match r.updateItemResult item.id cols with
        | Except.error e =>
          ([Event.updateMondayItemCall item.id cols], [mondayApiErrorLog e], Except.error e)
        | Except.ok _ =>
          let res := processTickets rules fm r items rest created (updated + 1)
          (Event.updateMondayItemCall item.id cols :: res.1,
           { message := "Updated Monday item: " ++ optStr d.subject ++ " (" ++
               String.intercalate ", " (keysOf u) ++ ")",
             type := "info" } :: res.2.1,
           res.2.2)
      else
        processTickets rules fm r items rest created updated

/-- The `for (const item of mondayItems)` loop of `syncMondayToHubSpot`
(lines 373-418), run against the remote oracle. -/
def processItems (rules : FieldRules) (fm : FieldMapping) (r : Remote)
    (tickets : List HubSpotTicket) :
    List MondayItem → Nat → Nat → List Event × List LogEntry × Except String (Nat × Nat)
  | [], created, updated => ([], [], Except.ok (created, updated))
  | item :: rest, created, updated =>
    let d := itemDataOf fm item
    match hubspotMapGet tickets item.name with
    | none =>
      let props := createHubSpotProperties d
      match r.createTicketResult props with
      | Except.error e =>
        ([Event.createHubSpotTicketCall props], [createTicketErrorLog e], Except.error e)
      | Except.ok _ =>
        let res := processItems rules fm r tickets rest (created + 1) updated
        (Event.createHubSpotTicketCall props :: res.1,
         { message := "Created HubSpot ticket: " ++ optStr d.subject,
           type := "success" } :: res.2.1,
         res.2.2)
    | some t =>
      let u := hubspotUpdateData rules d
      if u.length > 0 then
        let props := updateHubSpotProperties u
        match r.updateTicketResult t.id props with
        | Except.error e =>
          ([Event.updateHubSpotTicketCall t.id props], [updateTicketErrorLog e], Except.error e)
        | Except.ok _ =>
          let res := processItems rules fm r tickets rest created (updated + 1)
          (Event.updateHubSpotTicketCall t.id props :: res.1,
           { message := "Updated HubSpot ticket: " ++ optStr d.subject ++ " (" ++
               String.intercalate ", " (keysOf u) ++ ")",
             type := "info" } :: res.2.1,
           res.2.2)
      else
        processItems rules fm r tickets rest created updated

/-- `syncHubSpotToMonday` (lines 290-354): a no-op when sync is disabled;
otherwise one `try` block fetching both snapshots and running the record loop,
with a single pass-level `catch` that appends `Sync failed: ...` and swallows
the error (the function itself never throws).  Returns the remote events and
the appended log entries in chronological order. -/
def syncHubSpotToMondayRun (cfg : Config) (r : Remote) : List Event × List LogEntry :=
  if cfg.syncEnabled = false then ([], [])
  else
    let startLog : LogEntry := { message := "Starting HubSpot → Monday.com sync...", type := "info" }
    match r.ticketsResult with
    | Except.error e =>
      ([Event.fetchHubSpotTickets], [startLog, fetchTicketsErrorLog e, syncFailedLog e])
    | Except.ok tickets =>
      match r.itemsResult with
      | Except.error e =>
        ([Event.fetchHubSpotTickets, Event.fetchMondayItems],
         [startLog, mondayApiErrorLog e, syncFailedLog e])
      | Except.ok items =>
        let res := processTickets cfg.fieldRules cfg.fieldMapping r items tickets 0 0
        match res.2.2 with
        | Except.error e =>
          (Event.fetchHubSpotTickets :: Event.fetchMondayItems :: res.1,
           startLog :: res.2.1 ++ [syncFailedLog e])
        | Except.ok counters =>
          (Event.fetchHubSpotTickets :: Event.fetchMondayItems :: res.1,
           startLog :: res.2.1 ++
             [{ message := "HubSpot → Monday sync complete: " ++ toString counters.1 ++
                  " created, " ++ toString counters.2 ++ " updated",
                type := "success" }])

/-- `syncMondayToHubSpot` (lines 356-425): same shape as the other direction,
fetching the Monday snapshot first. -/
def syncMondayToHubSpotRun (cfg : Config) (r : Remote) : List Event × List LogEntry :=
  if cfg.syncEnabled = false then ([], [])
  else
    let startLog : LogEntry := { message := "Starting Monday.com → HubSpot sync...", type := "info" }
    match r.itemsResult with
    | Except.error e =>
      ([Event.fetchMondayItems], [startLog, mondayApiErrorLog e, syncFailedLog e])
    | Except.ok items =>
      match r.ticketsResult with
      | Except.error e =>
        ([Event.fetchMondayItems, Event.fetchHubSpotTickets],
         [startLog, fetchTicketsErrorLog e, syncFailedLog e])
      | Except.ok tickets =>
        let res := processItems cfg.fieldRules cfg.fieldMapping r tickets items 0 0
        match res.2.2 with
        | Except.error e =>
          (Event.fetchMondayItems :: Event.fetchHubSpotTickets :: res.1,
           startLog :: res.2.1 ++ [syncFailedLog e])
        | Except.ok counters =>
          (Event.fetchMondayItems :: Event.fetchHubSpotTickets :: res.1,
           startLog :: res.2.1 ++
             [{ message := "Monday → HubSpot sync complete: " ++ toString counters.1 ++
                  " created, " ++ toString counters.2 ++ " updated",
                type := "success" }])

/-- `performFullSync` (lines 427-430): the HubSpot → Monday pass followed by the
Monday → HubSpot pass.  Each pass sees the remote state at its own start time,
so the two passes take separate oracles. -/
def performFullSyncRun (cfg : Config) (r₁ r₂ : Remote) : List Event × List LogEntry :=
  let a := syncHubSpotToMondayRun cfg r₁
  let b := syncMondayToHubSpotRun cfg r₂
  (a.1 ++ b.1, a.2 ++ b.2)

/-- The entries of severity `error` among a list of log entries. -/
def errorEntries (lgs : List LogEntry) : List LogEntry :=
  lgs.filter (fun lg => lg.type == "error")

/-- The Monday item that exists after a successful `create_item` call for an
unmatched ticket: its name is the `item_name` sent (the ticket's subject) and
its columns hold the created column values. -/
def mkCreatedItem (fm : FieldMapping) (d : TicketData) (newId : String) : MondayItem :=
  { id := newId, name := optStr d.subject,
    column_values := (createMondayColumnValues fm d).map (fun p => ColumnValue.mk p.1 (some p.2)) }

/-- The Monday snapshot visible after one fully successful HubSpot → Monday
pass: every pre-existing item is transformed by the remote update semantics
`upd` (an update through `change_multiple_column_values` can change column
values but never an item's name or id), and one new item exists per unmatched
ticket. -/
def passTargetAfter (fm : FieldMapping) (upd : MondayItem → MondayItem)
    (tickets : List HubSpotTicket) (items : List MondayItem) : List MondayItem :=
  items.map upd ++
    (tickets.filter (fun t => (mondayMapLookup items (ticketDataOf t).subject).isNone)).map
      (fun t => mkCreatedItem fm (ticketDataOf t) "")

/-! ### Helper lemmas on the per-record decision -/

theorem planTicket_eq (rules : FieldRules) (items : List MondayItem) (t : HubSpotTicket) :
    (mondayMapLookup items (ticketDataOf t).subject = none ∧
      planTicket rules items t = PlanAction.createItem (ticketDataOf t)) ∨
    (∃ item, mondayMapLookup items (ticketDataOf t).subject = some item ∧
      ((mondayUpdateData rules (ticketDataOf t) ≠ [] ∧
         planTicket rules items t =
           PlanAction.updateItem item.id (mondayUpdateData rules (ticketDataOf t))) ∨
       (mondayUpdateData rules (ticketDataOf t) = [] ∧
         planTicket rules items t = PlanAction.skip (ticketDataOf t).subject))) := by
  cases hl : mondayMapLookup items (ticketDataOf t).subject with
  | none =>
    left
    exact ⟨rfl, by simp [planTicket, hl]⟩
  | some item =>
    right
    refine ⟨item, rfl, ?_⟩
    by_cases hu : (mondayUpdateData rules (ticketDataOf t)).length > 0
    · left
      refine ⟨?_, by simp [planTicket, hl, if_pos hu]⟩
      intro hnil
      rw [hnil] at hu
      exact absurd hu (by simp)
    · right
      refine ⟨?_, by simp [planTicket, hl, if_neg hu]⟩
      exact List.eq_nil_of_length_eq_zero (Nat.eq_zero_of_not_pos hu)

theorem planItem_eq (rules : FieldRules) (fm : FieldMapping)
    (tickets : List HubSpotTicket) (item : MondayItem) :
    (hubspotMapGet tickets item.name = none ∧
      planItem rules fm tickets item = PlanAction.createItem (itemDataOf fm item)) ∨
    (∃ t, hubspotMapGet tickets item.name = some t ∧
      ((hubspotUpdateData rules (itemDataOf fm item) ≠ [] ∧
         planItem rules fm tickets item =
           PlanAction.updateItem t.id (hubspotUpdateData rules (itemDataOf fm item))) ∨
       (hubspotUpdateData rules (itemDataOf fm item) = [] ∧
         planItem rules fm tickets item = PlanAction.skip (itemDataOf fm item).subject))) := by
  cases hl : hubspotMapGet tickets item.name with
  | none =>
    left
    exact ⟨rfl, by simp [planItem, hl]⟩
  | some t =>
    right
    refine ⟨t, rfl, ?_⟩
    by_cases hu : (hubspotUpdateData rules (itemDataOf fm item)).length > 0
    · left
      refine ⟨?_, by simp [planItem, hl, if_pos hu]⟩
      intro hnil
      rw [hnil] at hu
      exact absurd hu (by simp)
    · right
      refine ⟨?_, by simp [planItem, hl, if_neg hu]⟩
      exact List.eq_nil_of_length_eq_zero (Nat.eq_zero_of_not_pos hu)

/-! ### Claim C1 -/

/-- Claim C1: for every record pair and every logical field in
{title, description, status, priority}, the computed update field set of a
direction contains the field iff the field's rule equals the driving platform
of that direction or is "both"; in particular, with the status rule set to
"monday", status never appears in the HubSpot → Monday update field set. -/
theorem update_field_set_follows_policy (rules : FieldRules) (d : TicketData) :
    (("subject" ∈ keysOf (mondayUpdateData rules d)) ↔
        (rules.title = "hubspot" ∨ rules.title = "both")) ∧
    (("content" ∈ keysOf (mondayUpdateData rules d)) ↔
        (rules.description = "hubspot" ∨ rules.description = "both")) ∧
    (("status" ∈ keysOf (mondayUpdateData rules d)) ↔
        (rules.status = "hubspot" ∨ rules.status = "both")) ∧
    (("priority" ∈ keysOf (mondayUpdateData rules d)) ↔
        (rules.priority = "hubspot" ∨ rules.priority = "both")) ∧
    (("subject" ∈ keysOf (hubspotUpdateData rules d)) ↔
        (rules.title = "monday" ∨ rules.title = "both")) ∧
    (("content" ∈ keysOf (hubspotUpdateData rules d)) ↔
        (rules.description = "monday" ∨ rules.description = "both")) ∧
    (("status" ∈ keysOf (hubspotUpdateData rules d)) ↔
        (rules.status = "monday" ∨ rules.status = "both")) ∧
    (("priority" ∈ keysOf (hubspotUpdateData rules d)) ↔
        (rules.priority = "monday" ∨ rules.priority = "both")) ∧
    (rules.status = "monday" → "status" ∉ keysOf (mondayUpdateData rules d)) ∧
    (rules.status = "hubspot" → "status" ∉ keysOf (hubspotUpdateData rules d)) := by
  have h3 : ("status" ∈ keysOf (mondayUpdateData rules d)) ↔
      (rules.status = "hubspot" ∨ rules.status = "both") := by
    simp only [mondayUpdateData, keysOf, List.map_append, List.mem_append]
    split_ifs <;> simp_all
  have h7 : ("status" ∈ keysOf (hubspotUpdateData rules d)) ↔
      (rules.status = "monday" ∨ rules.status = "both") := by
    simp only [hubspotUpdateData, keysOf, List.map_append, List.mem_append]
    split_ifs <;> simp_all
  refine ⟨?_, ?_, h3, ?_, ?_, ?_, h7, ?_, ?_, ?_⟩
  · simp only [mondayUpdateData, keysOf, List.map_append, List.mem_append]
    split_ifs <;> simp_all
  · simp only [mondayUpdateData, keysOf, List.map_append, List.mem_append]
    split_ifs <;> simp_all
  · simp only [mondayUpdateData, keysOf, List.map_append, List.mem_append]
    split_ifs <;> simp_all
  · simp only [hubspotUpdateData, keysOf, List.map_append, List.mem_append]
    split_ifs <;> simp_all
  · simp only [hubspotUpdateData, keysOf, List.map_append, List.mem_append]
    split_ifs <;> simp_all
  · simp only [hubspotUpdateData, keysOf, List.map_append, List.mem_append]
    split_ifs <;> simp_all
  · intro hst hmem
    have hc := h3.mp hmem
    rw [hst] at hc
    exact absurd hc (by decide)
  · intro hst hmem
    have hc := h7.mp hmem
    rw [hst] at hc
    exact absurd hc (by decide)

/-- Witness for C1 at the startup field rules: with `status := "monday"`, the
HubSpot → Monday update field set contains no status field. -/
theorem update_field_set_follows_policy_witness :
    "status" ∉ keysOf (mondayUpdateData defaultFieldRules
      (ticketDataOf (HubSpotTicket.mk "1" (some "A") (some "c") (some "new") (some "HIGH")))) :=
  (update_field_set_follows_policy defaultFieldRules
      (ticketDataOf (HubSpotTicket.mk "1" (some "A") (some "c") (some "new") (some "HIGH")))).2.2.2.2.2.2.2.2.1
    (by decide)

/-! ### Claim C9 -/

/-- Claim C9: an update action is never emitted with an empty field set — a
matched record whose computed field set is empty is skipped silently: its plan
decision is `skip`, and during execution no remote call is made, nothing is
logged, no counter is incremented and no error is raised for it. -/
theorem no_empty_update_emitted (rules : FieldRules) (fm : FieldMapping) (r : Remote)
    (tickets : List HubSpotTicket) (items : List MondayItem) :
    (∀ a ∈ hubspotToMondayPlan rules tickets items, ∀ tid u,
        a = PlanAction.updateItem tid u → u ≠ []) ∧
    (∀ t : HubSpotTicket, ∀ item : MondayItem,
        mondayMapLookup items (ticketDataOf t).subject = some item →
        mondayUpdateData rules (ticketDataOf t) = [] →
        planTicket rules items t = PlanAction.skip (ticketDataOf t).subject) ∧
    (∀ a ∈ mondayToHubspotPlan rules fm items tickets, ∀ tid u,
        a = PlanAction.updateItem tid u → u ≠ []) ∧
    (∀ item : MondayItem, ∀ t : HubSpotTicket,
        hubspotMapGet tickets item.name = some t →
        hubspotUpdateData rules (itemDataOf fm item) = [] →
        planItem rules fm tickets item = PlanAction.skip (itemDataOf fm item).subject) ∧
    (∀ (t : HubSpotTicket) (rest : List HubSpotTicket) (item : MondayItem) (c u : Nat),
        mondayMapLookup items (ticketDataOf t).subject = some item →
        mondayUpdateData rules (ticketDataOf t) = [] →
        processTickets rules fm r items (t :: rest) c u =
          processTickets rules fm r items rest c u) := by
  refine ⟨?_, ?_, ?_, ?_, ?_⟩
  · intro a ha tid u hau
    rcases List.mem_map.mp ha with ⟨t, _, rfl⟩
    rcases planTicket_eq rules items t with ⟨_, hp⟩ | ⟨item, _, ⟨hne, hp⟩ | ⟨_, hp⟩⟩
    · rw [hp] at hau; cases hau
    · rw [hp] at hau
      cases hau
      exact hne
    · rw [hp] at hau; cases hau
  · intro t item hl hu
    rcases planTicket_eq rules items t with ⟨hnone, _⟩ | ⟨item2, _, ⟨hne, _⟩ | ⟨_, hp⟩⟩
    · rw [hnone] at hl; cases hl
    · exact absurd hu hne
    · exact hp
  · intro a ha tid u hau
    rcases List.mem_map.mp ha with ⟨item, _, rfl⟩
    rcases planItem_eq rules fm tickets item with ⟨_, hp⟩ | ⟨t, _, ⟨hne, hp⟩ | ⟨_, hp⟩⟩
    · rw [hp] at hau; cases hau
    · rw [hp] at hau
      cases hau
      exact hne
    · rw [hp] at hau; cases hau
  · intro item t hl hu
    rcases planItem_eq rules fm tickets item with ⟨hnone, _⟩ | ⟨t2, _, ⟨hne, _⟩ | ⟨_, hp⟩⟩
    · rw [hnone] at hl; cases hl
    · exact absurd hu hne
    · exact hp
  · intro t rest item c u hl hu
    simp [processTickets, hl, hu]

/-- Witness for C9: with every field rule set to "monday", a matched ticket in
the HubSpot → Monday direction yields a `skip`, and execution passes over it
untouched. -/
theorem no_empty_update_emitted_witness :
    planTicket (FieldRules.mk "monday" "monday" "monday" "monday" "monday")
        [MondayItem.mk "7" "A" []]
        (HubSpotTicket.mk "1" (some "A") (some "c") (some "new") (some "HIGH")) =
      PlanAction.skip (some "A") :=
  (no_empty_update_emitted (FieldRules.mk "monday" "monday" "monday" "monday" "monday")
      defaultFieldMapping
      (Remote.mk (Except.ok []) (Except.ok []) (fun _ _ => Except.ok "1")
        (fun _ _ => Except.ok ()) (fun _ => Except.ok "1") (fun _ _ => Except.ok ()))
      [HubSpotTicket.mk "1" (some "A") (some "c") (some "new") (some "HIGH")]
      [MondayItem.mk "7" "A" []]).2.1
    (HubSpotTicket.mk "1" (some "A") (some "c") (some "new") (some "HIGH"))
    (MondayItem.mk "7" "A" []) (by decide) (by decide)

/-! ### Claim C4 -/

/-- Claim C4: the identity index built from the ordered target snapshot is
last-write-wins on duplicate keys — the later occurrence in the sequence
replaces the earlier — and every lookup matches by exact string equality
against that later occurrence only.  Stated for both directions' indexes
(`mondayMap` keyed by item name, `hubspotMap` keyed by ticket subject), plus
the fact that the per-record decision of the pass is taken against the later
occurrence (its id receives the update). -/
theorem matcher_last_write_wins :
    (∀ (l₁ l₂ : List MondayItem) (rec : MondayItem) (k : String),
        rec.name = k → (∀ x ∈ l₂, x.name ≠ k) →
        mondayMapGet (l₁ ++ rec :: l₂) k = some rec) ∧
    (∀ (items : List MondayItem) (k : String) (it : MondayItem),
        mondayMapGet items k = some it → it ∈ items ∧ it.name = k) ∧
    (∀ (l₁ l₂ : List HubSpotTicket) (rec : HubSpotTicket) (k : String),
        rec.subject = some k → (∀ x ∈ l₂, x.subject ≠ some k) →
        hubspotMapGet (l₁ ++ rec :: l₂) k = some rec) ∧
    (∀ (tickets : List HubSpotTicket) (k : String) (t : HubSpotTicket),
        hubspotMapGet tickets k = some t → t ∈ tickets ∧ t.subject = some k) ∧
    (∀ (rules : FieldRules) (l₁ l₂ : List MondayItem) (rec : MondayItem) (t : HubSpotTicket),
        (ticketDataOf t).subject = some rec.name → (∀ x ∈ l₂, x.name ≠ rec.name) →
        planTicket rules (l₁ ++ rec :: l₂) t =
          (if (mondayUpdateData rules (ticketDataOf t)).length > 0
           then PlanAction.updateItem rec.id (mondayUpdateData rules (ticketDataOf t))
           else PlanAction.skip (ticketDataOf t).subject)) := by
  have hm : ∀ (l₁ l₂ : List MondayItem) (rec : MondayItem) (k : String),
      rec.name = k → (∀ x ∈ l₂, x.name ≠ k) →
      mondayMapGet (l₁ ++ rec :: l₂) k = some rec := by
    intro l₁ l₂ rec k hk hl₂
    unfold mondayMapGet
    rw [mapGetBy_append]
    have h2 : mapGetBy (fun item => some item.name) l₂ k = none :=
      mapGetBy_eq_none_of_not_mem _ k l₂ (by
        intro x hx hcon
        exact hl₂ x hx (Option.some_injective _ hcon))
    rw [mapGetBy_cons, h2]
    simp only
    rw [if_pos (by rw [hk])]
  refine ⟨hm, ?_, ?_, ?_, ?_⟩
  · intro items k it h
    unfold mondayMapGet at h
    rcases mapGetBy_eq_some (fun item => some item.name) k items it h with ⟨hmem, hkey⟩
    exact ⟨hmem, Option.some_injective _ hkey⟩
  · intro l₁ l₂ rec k hk hl₂
    unfold hubspotMapGet
    rw [mapGetBy_append]
    have h2 : mapGetBy HubSpotTicket.subject l₂ k = none :=
      mapGetBy_eq_none_of_not_mem _ k l₂ (fun x hx => hl₂ x hx)
    rw [mapGetBy_cons, h2]
    simp only
    rw [if_pos hk]
  · intro tickets k t h
    unfold hubspotMapGet at h
    exact mapGetBy_eq_some HubSpotTicket.subject k tickets t h
  · intro rules l₁ l₂ rec t hsubj hl₂
    have hlook : mondayMapLookup (l₁ ++ rec :: l₂) (ticketDataOf t).subject = some rec := by
      rw [hsubj]
      exact hm l₁ l₂ rec rec.name rfl hl₂
    simp [planTicket, hlook]

/-- Witness for C4: the key "X" appears twice in the target snapshot; the
index retains (and the pass updates) the later occurrence. -/
theorem matcher_last_write_wins_witness :
    mondayMapGet [MondayItem.mk "1" "X" [], MondayItem.mk "2" "X" []] "X" =
      some (MondayItem.mk "2" "X" []) :=
  matcher_last_write_wins.1 [MondayItem.mk "1" "X" []] [] (MondayItem.mk "2" "X" []) "X"
    (by decide) (by decide)

/-! ### Claim C3 -/

/-- Whether a plan action is a Create. -/
def PlanAction.isCreate : PlanAction → Bool
  | PlanAction.createItem _ => true
  | _ => false

theorem jsOr_of_not_truthy (v : Option String) (dflt : String) (h : truthy v = false) :
    jsOr v dflt = dflt := by
  cases v with
  | none => rfl
  | some s =>
    have hs : s = "" := by
      by_contra hne
      simp [truthy, hne] at h
    simp [jsOr, hs]

/-- A HubSpot ticket with no pipeline stage and no priority set. -/
def ticketNoStatus : HubSpotTicket :=
  HubSpotTicket.mk "104" (some "Bug 1") (some "desc") none none

/-- Counterexample to C3: for an unmatched HubSpot ticket whose status and
priority are absent, the pass emits a Create, but the Monday create payload
contains only the description column — the absent status/priority fields are
silently omitted, with no fallback to any default value. -/
theorem create_missing_fields_not_defaulted :
    hubspotToMondayPlan defaultFieldRules [ticketNoStatus] [] =
      [PlanAction.createItem (ticketDataOf ticketNoStatus)] ∧
    createMondayColumnValues defaultFieldMapping (ticketDataOf ticketNoStatus) =
      [("text", "desc")] ∧
    "status" ∉ payloadKeys (createMondayColumnValues defaultFieldMapping (ticketDataOf ticketNoStatus)) ∧
    "priority" ∉ payloadKeys (createMondayColumnValues defaultFieldMapping (ticketDataOf ticketNoStatus)) := by
  decide

/-- Claim C3 amended: every unmatched source record yields a Create carrying
the full four-field normalised record, and the Create decisions are
independent of the field policy (policy restricts only Updates).  Fallback to
the documented defaults `'new'`/`'MEDIUM'` happens only on HubSpot-bound
creates; Monday-bound creates omit absent or empty fields from the payload
with no default. -/
theorem create_fully_seeded (rules₁ rules₂ : FieldRules) (fm : FieldMapping)
    (tickets : List HubSpotTicket) (items : List MondayItem) (d : TicketData) :
    ((hubspotToMondayPlan rules₁ tickets items).filter PlanAction.isCreate =
      (hubspotToMondayPlan rules₂ tickets items).filter PlanAction.isCreate) ∧
    ((mondayToHubspotPlan rules₁ fm items tickets).filter PlanAction.isCreate =
      (mondayToHubspotPlan rules₂ fm items tickets).filter PlanAction.isCreate) ∧
    (∀ t ∈ tickets, mondayMapLookup items (ticketDataOf t).subject = none →
      PlanAction.createItem (ticketDataOf t) ∈ hubspotToMondayPlan rules₁ tickets items) ∧
    (∀ item ∈ items, hubspotMapGet tickets item.name = none →
      PlanAction.createItem (itemDataOf fm item) ∈ mondayToHubspotPlan rules₁ fm items tickets) ∧
    (truthy d.status = false → ("hs_pipeline_stage", some "new") ∈ createHubSpotProperties d) ∧
    (truthy d.priority = false → ("hs_ticket_priority", some "MEDIUM") ∈ createHubSpotProperties d) ∧
    (truthy d.status = false →
      "status" ∉ payloadKeys (createMondayColumnValues defaultFieldMapping d)) ∧
    (truthy d.priority = false →
      "priority" ∉ payloadKeys (createMondayColumnValues defaultFieldMapping d)) := by
  refine ⟨?_, ?_, ?_, ?_, ?_, ?_, ?_, ?_⟩
  · induction tickets with
    | nil => rfl
    | cons t rest ih =>
      simp only [hubspotToMondayPlan, List.map_cons, List.filter_cons] at ih ⊢
      cases hl : mondayMapLookup items (ticketDataOf t).subject with
      | none => simp [planTicket, hl, PlanAction.isCreate, ih]
      | some item =>
        by_cases h₁ : (mondayUpdateData rules₁ (ticketDataOf t)).length > 0 <;>
          by_cases h₂ : (mondayUpdateData rules₂ (ticketDataOf t)).length > 0 <;>
            simp [planTicket, hl, h₁, h₂, PlanAction.isCreate, ih]
  · induction items with
    | nil => rfl
    | cons item rest ih =>
      simp only [mondayToHubspotPlan, List.map_cons, List.filter_cons] at ih ⊢
      cases hl : hubspotMapGet tickets item.name with
      | none => simp [planItem, hl, PlanAction.isCreate, ih]
      | some t =>
        by_cases h₁ : (hubspotUpdateData rules₁ (itemDataOf fm item)).length > 0 <;>
          by_cases h₂ : (hubspotUpdateData rules₂ (itemDataOf fm item)).length > 0 <;>
            simp [planItem, hl, h₁, h₂, PlanAction.isCreate, ih]
  · intro t ht hl
    have : planTicket rules₁ items t = PlanAction.createItem (ticketDataOf t) := by
      simp [planTicket, hl]
    exact this ▸ List.mem_map_of_mem (planTicket rules₁ items) ht
  · intro item hi hl
    have : planItem rules₁ fm tickets item = PlanAction.createItem (itemDataOf fm item) := by
      simp [planItem, hl]
    exact this ▸ List.mem_map_of_mem (planItem rules₁ fm tickets) hi
  · intro h
    simp [createHubSpotProperties, jsOr_of_not_truthy d.status "new" h]
  · intro h
    simp [createHubSpotProperties, jsOr_of_not_truthy d.priority "MEDIUM" h]
  · intro h
    simp only [createMondayColumnValues, payloadKeys, List.map_append, List.mem_append]
    split_ifs <;> simp_all [defaultFieldMapping]
  · intro h
    simp only [createMondayColumnValues, payloadKeys, List.map_append, List.mem_append]
    split_ifs <;> simp_all [defaultFieldMapping]

/-- Witness for C3 (amended): the unmatched ticket without status yields a
Create carrying the full normalised record, and its Monday payload omits the
status column. -/
theorem create_fully_seeded_witness :
    PlanAction.createItem (ticketDataOf ticketNoStatus) ∈
      hubspotToMondayPlan defaultFieldRules [ticketNoStatus] [] ∧
    "status" ∉ payloadKeys (createMondayColumnValues defaultFieldMapping
      (TicketData.mk (some "Bug 2") (some "x") none none)) :=
  ⟨(create_fully_seeded defaultFieldRules defaultFieldRules defaultFieldMapping
      [ticketNoStatus] [] (ticketDataOf ticketNoStatus)).2.2.1 ticketNoStatus
      (by decide) (by decide),
   (create_fully_seeded defaultFieldRules defaultFieldRules defaultFieldMapping
      [ticketNoStatus] [] (TicketData.mk (some "Bug 2") (some "x") none none)).2.2.2.2.2.2.1
      (by decide)⟩

/-! ### Claim C10 -/

/-- A configuration equal to `cfg` except for the assignee field rule and the
assignee column mapping. -/
def setAssignee (cfg : Config) (a b : String) : Config :=
  { cfg with fieldRules := { cfg.fieldRules with assignee := a },
             fieldMapping := { cfg.fieldMapping with assignee := b } }

theorem processTickets_assignee_irrel (rules : FieldRules) (fm : FieldMapping) (a b : String)
    (r : Remote) (items : List MondayItem) :
    ∀ (ts : List HubSpotTicket) (c u : Nat),
      processTickets { rules with assignee := a } { fm with assignee := b } r items ts c u =
        processTickets rules fm r items ts c u := by
  intro ts
  have h1 : createMondayColumnValues { fm with assignee := b } = createMondayColumnValues fm := rfl
  have h2 : mondayUpdateData { rules with assignee := a } = mondayUpdateData rules := rfl
  have h3 : updateMondayColumnValues { fm with assignee := b } = updateMondayColumnValues fm := rfl
  induction ts with
  | nil => intro c u; rfl
  | cons t rest ih =>
    intro c u
    simp only [processTickets, h1, h2, h3]
    cases mondayMapLookup items (ticketDataOf t).subject with
    | none =>
      cases r.createItemResult (ticketDataOf t).subject
          (createMondayColumnValues fm (ticketDataOf t)) with
      | error e => rfl
      | ok s => simp [ih]
    | some item =>
      by_cases h : (mondayUpdateData rules (ticketDataOf t)).length > 0
      · simp only [if_pos h]
        cases r.updateItemResult item.id
            (updateMondayColumnValues fm (mondayUpdateData rules (ticketDataOf t))) with
        | error e => rfl
        | ok s => simp [ih]
      · simp only [if_neg h]
        exact ih c u

theorem processItems_assignee_irrel (rules : FieldRules) (fm : FieldMapping) (a b : String)
    (r : Remote) (tickets : List HubSpotTicket) :
    ∀ (its : List MondayItem) (c u : Nat),
      processItems { rules with assignee := a } { fm with assignee := b } r tickets its c u =
        processItems rules fm r tickets its c u := by
  intro its
  have h1 : itemDataOf { fm with assignee := b } = itemDataOf fm := rfl
  have h2 : hubspotUpdateData { rules with assignee := a } = hubspotUpdateData rules := rfl
  induction its with
  | nil => intro c u; rfl
  | cons item rest ih =>
    intro c u
    simp only [processItems, h1, h2]
    cases hubspotMapGet tickets item.name with
    | none =>
      cases r.createTicketResult (createHubSpotProperties (itemDataOf fm item)) with
      | error e => rfl
      | ok s => simp [ih]
    | some t =>
      by_cases h : (hubspotUpdateData rules (itemDataOf fm item)).length > 0
      · simp only [if_pos h]
        cases r.updateTicketResult t.id
            (updateHubSpotProperties (hubspotUpdateData rules (itemDataOf fm item))) with
        | error e => rfl
        | ok s => simp [ih]
      · simp only [if_neg h]
        exact ih c u

/-- Claim C10: the assignee field rule (and the assignee column mapping) is
inert: no computed update field set and no create/update payload ever contains
an assignee/owner field, and changing the assignee rule or mapping to any
value leaves the entire output of both reconciliation passes — every remote
call made and every log entry — unchanged, so the remote assignee on both
platforms is untouched by every pass. -/
theorem assignee_rule_inert (rules : FieldRules) (d : TicketData)
    (u : List (String × Option String)) (cfg : Config) (r : Remote) (a b : String) :
    "assignee" ∉ keysOf (mondayUpdateData rules d) ∧
    "assignee" ∉ keysOf (hubspotUpdateData rules d) ∧
    "hubspot_owner_id" ∉ keysOf (createHubSpotProperties d) ∧
    "hubspot_owner_id" ∉ payloadKeys (updateHubSpotProperties u) ∧
    "person" ∉ payloadKeys (createMondayColumnValues defaultFieldMapping d) ∧
    "person" ∉ payloadKeys (updateMondayColumnValues defaultFieldMapping u) ∧
    syncHubSpotToMondayRun (setAssignee cfg a b) r = syncHubSpotToMondayRun cfg r ∧
    syncMondayToHubSpotRun (setAssignee cfg a b) r = syncMondayToHubSpotRun cfg r := by
  refine ⟨?_, ?_, ?_, ?_, ?_, ?_, ?_, ?_⟩
  · simp only [mondayUpdateData, keysOf, List.map_append, List.mem_append]
    split_ifs <;> simp_all
  · simp only [hubspotUpdateData, keysOf, List.map_append, List.mem_append]
    split_ifs <;> simp_all
  · simp [createHubSpotProperties, keysOf]
  · simp only [updateHubSpotProperties, payloadKeys, List.map_append, List.mem_append]
    cases jsGet u "subject" <;> cases jsGet u "content" <;>
      cases jsGet u "status" <;> cases jsGet u "priority" <;> simp_all
  · simp only [createMondayColumnValues, payloadKeys, List.map_append, List.mem_append]
    split_ifs <;> simp_all [defaultFieldMapping]
  · simp only [updateMondayColumnValues, payloadKeys, List.map_append, List.mem_append]
    cases jsGet u "content" <;> cases jsGet u "status" <;>
      cases jsGet u "priority" <;> simp_all [defaultFieldMapping]
  · unfold syncHubSpotToMondayRun
    have he : (setAssignee cfg a b).syncEnabled = cfg.syncEnabled := rfl
    have hr : (setAssignee cfg a b).fieldRules = { cfg.fieldRules with assignee := a } := rfl
    have hf : (setAssignee cfg a b).fieldMapping = { cfg.fieldMapping with assignee := b } := rfl
    rw [he, hr, hf]
    cases cfg.syncEnabled with
    | false => rfl
    | true =>
      cases r.ticketsResult with
      | error e => rfl
      | ok tickets =>
        cases r.itemsResult with
        | error e => rfl
        | ok items =>
          simp only [processTickets_assignee_irrel cfg.fieldRules cfg.fieldMapping a b r items]
  · unfold syncMondayToHubSpotRun
    have he : (setAssignee cfg a b).syncEnabled = cfg.syncEnabled := rfl
    have hr : (setAssignee cfg a b).fieldRules = { cfg.fieldRules with assignee := a } := rfl
    have hf : (setAssignee cfg a b).fieldMapping = { cfg.fieldMapping with assignee := b } := rfl
    rw [he, hr, hf]
    cases cfg.syncEnabled with
    | false => rfl
    | true =>
      cases r.itemsResult with
      | error e => rfl
      | ok items =>
        cases r.ticketsResult with
        | error e => rfl
        | ok tickets =>
          simp only [processItems_assignee_irrel cfg.fieldRules cfg.fieldMapping a b r tickets]

/-- Witness for C10: no assignee key in a concrete update field set, and the
full HubSpot → Monday pass output is unchanged under an assignee
rule/mapping change. -/
theorem assignee_rule_inert_witness :
    "assignee" ∉ keysOf (mondayUpdateData defaultFieldRules
      (ticketDataOf ticketNoStatus)) ∧
    syncHubSpotToMondayRun
        (setAssignee (Config.mk "h" "m" "b" true defaultFieldRules defaultFieldMapping)
          "monday" "people")
        (Remote.mk (Except.ok []) (Except.ok []) (fun _ _ => Except.ok "1")
          (fun _ _ => Except.ok ()) (fun _ => Except.ok "1") (fun _ _ => Except.ok ())) =
      syncHubSpotToMondayRun (Config.mk "h" "m" "b" true defaultFieldRules defaultFieldMapping)
        (Remote.mk (Except.ok []) (Except.ok []) (fun _ _ => Except.ok "1")
          (fun _ _ => Except.ok ()) (fun _ => Except.ok "1") (fun _ _ => Except.ok ())) :=
  ⟨(assignee_rule_inert defaultFieldRules (ticketDataOf ticketNoStatus) []
      (Config.mk "h" "m" "b" true defaultFieldRules defaultFieldMapping)
      (Remote.mk (Except.ok []) (Except.ok []) (fun _ _ => Except.ok "1")
        (fun _ _ => Except.ok ()) (fun _ => Except.ok "1") (fun _ _ => Except.ok ()))
      "monday" "people").1,
   (assignee_rule_inert defaultFieldRules (ticketDataOf ticketNoStatus) []
      (Config.mk "h" "m" "b" true defaultFieldRules defaultFieldMapping)
      (Remote.mk (Except.ok []) (Except.ok []) (fun _ _ => Except.ok "1")
        (fun _ _ => Except.ok ()) (fun _ => Except.ok "1") (fun _ _ => Except.ok ()))
      "monday" "people").2.2.2.2.2.2.1⟩

/-! ### Concrete fixtures for the execution-level claims -/

/-- A fully configured `config` with sync enabled. -/
def cfgOn : Config :=
  { hubspotToken := "hs-token", mondayToken := "mo-token", mondayBoardId := "42",
    syncEnabled := true, fieldRules := defaultFieldRules, fieldMapping := defaultFieldMapping }

def ticketA : HubSpotTicket :=
  HubSpotTicket.mk "101" (some "Bug A") (some "da") (some "new") (some "HIGH")

def ticketB : HubSpotTicket :=
  HubSpotTicket.mk "102" (some "Bug B") (some "db") (some "new") (some "LOW")

def ticketC : HubSpotTicket :=
  HubSpotTicket.mk "103" (some "Bug C") (some "dc") (some "new") (some "LOW")

/-- A remote on which creating the item for "Bug B" is rejected and everything
else succeeds; the Monday board is empty. -/
def remoteFailSecond : Remote :=
  { ticketsResult := Except.ok [ticketA, ticketB, ticketC],
    itemsResult := Except.ok [],
    createItemResult := fun nm _ => if nm = some "Bug B" then Except.error "boom" else Except.ok "9",
    updateItemResult := fun _ _ => Except.ok (),
    createTicketResult := fun _ => Except.ok "9",
    updateTicketResult := fun _ _ => Except.ok () }

/-- A remote whose HubSpot ticket fetch is rejected. -/
def remoteFetchFail : Remote :=
  { ticketsResult := Except.error "ECONNREFUSED",
    itemsResult := Except.ok [],
    createItemResult := fun _ _ => Except.ok "9",
    updateItemResult := fun _ _ => Except.ok (),
    createTicketResult := fun _ => Except.ok "9",
    updateTicketResult := fun _ _ => Except.ok () }

/-! ### Claim C2 -/

/-- Counterexample to C2: three tickets, the create for the second one is
rejected.  The pass applies the first create, attempts the second, and then
stops — the third record is never attempted (its create call does not appear
in the event trace), because the `try`/`catch` wraps the whole pass, not each
record. -/
theorem record_failure_counterexample :
    syncHubSpotToMondayRun cfgOn remoteFailSecond =
      ([Event.fetchHubSpotTickets, Event.fetchMondayItems,
        Event.createMondayItemCall (some "Bug A")
          [("text", "da"), ("status", "new"), ("priority", "HIGH")],
        Event.createMondayItemCall (some "Bug B")
          [("text", "db"), ("status", "new"), ("priority", "LOW")]],
       [{ message := "Starting HubSpot → Monday.com sync...", type := "info" },
        { message := "Created Monday item: Bug A", type := "success" },
        mondayApiErrorLog "boom",
        syncFailedLog "boom"]) := by
  decide

/-- Claim C2 amended: a per-record Create/Update failure is caught only at the
pass level, not per record — the loop stops at the first failing record, so
records after it in the same pass are NOT attempted; the failure is logged
(helper entry plus one pass-level "Sync failed" error entry); changes already
applied to earlier records stay applied (no rollback). -/
theorem record_failure_aborts_pass (cfg : Config) (r : Remote)
    (tickets : List HubSpotTicket) (items : List MondayItem)
    (t : HubSpotTicket) (rest : List HubSpotTicket) (c u : Nat) (e : String) :
    (mondayMapLookup items (ticketDataOf t).subject = none →
     r.createItemResult (ticketDataOf t).subject
         (createMondayColumnValues cfg.fieldMapping (ticketDataOf t)) = Except.error e →
     processTickets cfg.fieldRules cfg.fieldMapping r items (t :: rest) c u =
       ([Event.createMondayItemCall (ticketDataOf t).subject
           (createMondayColumnValues cfg.fieldMapping (ticketDataOf t))],
        [mondayApiErrorLog e], Except.error e)) ∧
    (cfg.syncEnabled = true → r.ticketsResult = Except.ok tickets →
     r.itemsResult = Except.ok items →
     ∀ evs lgs, processTickets cfg.fieldRules cfg.fieldMapping r items tickets 0 0 =
         (evs, lgs, Except.error e) →
     syncHubSpotToMondayRun cfg r =
       (Event.fetchHubSpotTickets :: Event.fetchMondayItems :: evs,
        { message := "Starting HubSpot → Monday.com sync...", type := "info" } ::
          (lgs ++ [syncFailedLog e]))) := by
  constructor
  · intro h1 h2
    simp only [processTickets, h1, h2]
  · intro hon hT hI evs lgs hP
    unfold syncHubSpotToMondayRun
    rw [hon, hT, hI]
    simp only [hP]
    simp

/-- Witness for C2 (amended), at the concrete failing remote: the failing
create ends the record loop immediately and the pass logs the failure. -/
theorem record_failure_aborts_pass_witness :
    processTickets cfgOn.fieldRules cfgOn.fieldMapping remoteFailSecond [] [ticketB, ticketC] 1 0 =
      ([Event.createMondayItemCall (some "Bug B")
          [("text", "db"), ("status", "new"), ("priority", "LOW")]],
       [mondayApiErrorLog "boom"], Except.error "boom") :=
  (record_failure_aborts_pass cfgOn remoteFailSecond [] [] ticketB [ticketC] 1 0 "boom").1
    (by rfl) (by rfl)

/-! ### Claim C5 -/

/-- Claim C5: a thrown snapshot-fetch error aborts only that one-direction
pass: the pass performs no mutation (its only event is the failed fetch), the
error is logged and the pass ends with "Sync failed"; the orchestrator does
not crash and the other direction's pass in the same full sync runs exactly as
it would on its own. -/
theorem fetch_error_isolated (cfg : Config) (r₁ r₂ : Remote) (e : String)
    (hon : cfg.syncEnabled = true) (hf : r₁.ticketsResult = Except.error e) :
    performFullSyncRun cfg r₁ r₂ =
      (Event.fetchHubSpotTickets :: (syncMondayToHubSpotRun cfg r₂).1,
       { message := "Starting HubSpot → Monday.com sync...", type := "info" } ::
         fetchTicketsErrorLog e :: syncFailedLog e :: (syncMondayToHubSpotRun cfg r₂).2) := by
  unfold performFullSyncRun syncHubSpotToMondayRun
  rw [hon, hf]
  simp

/-- Witness for C5 at a concrete remote: the HubSpot fetch fails, yet the
Monday → HubSpot pass still runs to completion. -/
theorem fetch_error_isolated_witness :
    performFullSyncRun cfgOn remoteFetchFail remoteFetchFail =
      (Event.fetchHubSpotTickets :: (syncMondayToHubSpotRun cfgOn remoteFetchFail).1,
       { message := "Starting HubSpot → Monday.com sync...", type := "info" } ::
         fetchTicketsErrorLog "ECONNREFUSED" :: syncFailedLog "ECONNREFUSED" ::
           (syncMondayToHubSpotRun cfgOn remoteFetchFail).2) :=
  fetch_error_isolated cfgOn remoteFetchFail remoteFetchFail "ECONNREFUSED" rfl rfl

/-! ### Claim C7 -/

/-- Counterexample to C7: a single failed snapshot fetch produces TWO log
entries with severity error (the helper-level entry of `getHubSpotTickets` and
the pass-level "Sync failed" entry), not exactly one; neither message contains
a record identity key. -/
theorem double_error_logging_counterexample :
    errorEntries (syncHubSpotToMondayRun cfgOn remoteFetchFail).2 =
      [fetchTicketsErrorLog "ECONNREFUSED", syncFailedLog "ECONNREFUSED"] ∧
    (errorEntries (syncHubSpotToMondayRun cfgOn remoteFetchFail).2).length ≠ 1 := by
  decide

/-- Claim C7 amended: no failure is silently dropped — every failure path
appends at least one severity-error entry — but the helper-level and
pass-level logging stack: a failed fetch or a failed per-record Create
produces exactly two error entries, the helper's entry naming the operation
followed by the pass-level "Sync failed" entry, and fetch failures carry no
record identity key in either message. -/
theorem failure_paths_log_two_errors (cfg : Config) (r : Remote) (e : String)
    (tickets : List HubSpotTicket) (items : List MondayItem)
    (t : HubSpotTicket) (rest : List HubSpotTicket) (hon : cfg.syncEnabled = true) :
    (r.ticketsResult = Except.error e →
      errorEntries (syncHubSpotToMondayRun cfg r).2 =
        [fetchTicketsErrorLog e, syncFailedLog e]) ∧
    (r.ticketsResult = Except.ok tickets → r.itemsResult = Except.error e →
      errorEntries (syncHubSpotToMondayRun cfg r).2 =
        [mondayApiErrorLog e, syncFailedLog e]) ∧
    (r.ticketsResult = Except.ok (t :: rest) → r.itemsResult = Except.ok items →
      mondayMapLookup items (ticketDataOf t).subject = none →
      r.createItemResult (ticketDataOf t).subject
          (createMondayColumnValues cfg.fieldMapping (ticketDataOf t)) = Except.error e →
      errorEntries (syncHubSpotToMondayRun cfg r).2 =
        [mondayApiErrorLog e, syncFailedLog e]) ∧
    (r.itemsResult = Except.error e →
      errorEntries (syncMondayToHubSpotRun cfg r).2 =
        [mondayApiErrorLog e, syncFailedLog e]) := by
  refine ⟨?_, ?_, ?_, ?_⟩
  · intro hf
    unfold syncHubSpotToMondayRun
    rw [hon, hf]
    simp [errorEntries, fetchTicketsErrorLog, syncFailedLog]
  · intro hT hI
    unfold syncHubSpotToMondayRun
    rw [hon, hT, hI]
    simp [errorEntries, mondayApiErrorLog, syncFailedLog]
  · intro hT hI hl hc
    unfold syncHubSpotToMondayRun
    rw [hon, hT, hI]
    simp only [processTickets, hl, hc]
    simp [errorEntries, mondayApiErrorLog, syncFailedLog]
  · intro hI
    unfold syncMondayToHubSpotRun
    rw [hon, hI]
    simp [errorEntries, mondayApiErrorLog, syncFailedLog]

/-- Witness for C7 (amended): the failed-items-fetch path appends exactly the
two error entries. -/
theorem failure_paths_log_two_errors_witness :
    errorEntries (syncMondayToHubSpotRun cfgOn
        (Remote.mk (Except.ok []) (Except.error "down") (fun _ _ => Except.ok "9")
          (fun _ _ => Except.ok ()) (fun _ => Except.ok "9") (fun _ _ => Except.ok ()))).2 =
      [mondayApiErrorLog "down", syncFailedLog "down"] :=
  (failure_paths_log_two_errors cfgOn
      (Remote.mk (Except.ok []) (Except.error "down") (fun _ _ => Except.ok "9")
        (fun _ _ => Except.ok ()) (fun _ => Except.ok "9") (fun _ _ => Except.ok ()))
      "down" [] [] ticketA [] rfl).2.2.2 rfl

/-! ### Claim C8 -/

/-- A configuration with every credential empty but sync enabled. -/
def cfgNoCreds : Config :=
  { hubspotToken := "", mondayToken := "", mondayBoardId := "",
    syncEnabled := true, fieldRules := defaultFieldRules, fieldMapping := defaultFieldMapping }

/-- Counterexample to C8: with all credentials empty and sync enabled, a pass
is still attempted — the snapshot fetches occur (a full sync attempts all of
them); no configuration validation prevents it and no configuration error is
surfaced: the resulting remote rejection is logged as an ordinary sync
failure. -/
theorem missing_credentials_counterexample :
    (syncHubSpotToMondayRun cfgNoCreds remoteFetchFail).1 = [Event.fetchHubSpotTickets] ∧
    (performFullSyncRun cfgNoCreds remoteFetchFail remoteFetchFail).1 =
      [Event.fetchHubSpotTickets, Event.fetchMondayItems, Event.fetchHubSpotTickets] ∧
    (syncHubSpotToMondayRun cfgNoCreds remoteFetchFail).2 =
      [{ message := "Starting HubSpot → Monday.com sync...", type := "info" },
       fetchTicketsErrorLog "ECONNREFUSED", syncFailedLog "ECONNREFUSED"] := by
  decide

/-- Claim C8 amended: the only gate before a pass is the `syncEnabled` flag.
When it is false nothing at all happens; when it is true the pass starts with
a snapshot fetch regardless of the credential values — the credentials are
never read by the sync logic itself (changing them does not change the pass
output for a fixed remote behaviour), so no configuration error is surfaced
before a pass. -/
theorem only_gate_is_sync_enabled (cfg : Config) (r : Remote) (h m b : String) :
    (cfg.syncEnabled = false →
      syncHubSpotToMondayRun cfg r = ([], []) ∧
      syncMondayToHubSpotRun cfg r = ([], []) ∧
      performFullSyncRun cfg r r = ([], [])) ∧
    (cfg.syncEnabled = true →
      (syncHubSpotToMondayRun cfg r).1.head? = some Event.fetchHubSpotTickets ∧
      (syncMondayToHubSpotRun cfg r).1.head? = some Event.fetchMondayItems) ∧
    (syncHubSpotToMondayRun
        { cfg with hubspotToken := h, mondayToken := m, mondayBoardId := b } r =
      syncHubSpotToMondayRun cfg r ∧
     syncMondayToHubSpotRun
        { cfg with hubspotToken := h, mondayToken := m, mondayBoardId := b } r =
      syncMondayToHubSpotRun cfg r) := by
  refine ⟨?_, ?_, ?_, ?_⟩
  · intro hoff
    have h1 : syncHubSpotToMondayRun cfg r = ([], []) := by
      unfold syncHubSpotToMondayRun
      rw [hoff]
      simp
    have h2 : syncMondayToHubSpotRun cfg r = ([], []) := by
      unfold syncMondayToHubSpotRun
      rw [hoff]
      simp
    refine ⟨h1, h2, ?_⟩
    unfold performFullSyncRun
    rw [h1, h2]
    simp
  · intro hon
    constructor
    · unfold syncHubSpotToMondayRun
      rw [hon]
      cases r.ticketsResult with
      | error e => simp
      | ok tickets =>
        cases r.itemsResult with
        | error e => simp
        | ok items =>
          cases hres : (processTickets cfg.fieldRules cfg.fieldMapping r items tickets 0 0).2.2 <;>
            simp [hres]
    · unfold syncMondayToHubSpotRun
      rw [hon]
      cases r.itemsResult with
      | error e => simp
      | ok items =>
        cases r.ticketsResult with
        | error e => simp
        | ok tickets =>
          cases hres : (processItems cfg.fieldRules cfg.fieldMapping r tickets items 0 0).2.2 <;>
            simp [hres]
  · exact rfl
  · exact rfl

/-- Witness for C8 (amended): concrete instances of both gates. -/
theorem only_gate_is_sync_enabled_witness :
    syncHubSpotToMondayRun (Config.mk "" "" "" false defaultFieldRules defaultFieldMapping)
        remoteFetchFail = ([], []) ∧
    (syncHubSpotToMondayRun cfgNoCreds remoteFetchFail).1.head? =
      some Event.fetchHubSpotTickets :=
  ⟨((only_gate_is_sync_enabled
        (Config.mk "" "" "" false defaultFieldRules defaultFieldMapping)
        remoteFetchFail "x" "y" "z").1 rfl).1,
   ((only_gate_is_sync_enabled cfgNoCreds remoteFetchFail "x" "y" "z").2.1 rfl).1⟩

/-! ### Claim C6 -/

theorem passTargetAfter_lookup_isSome (fm : FieldMapping) (upd : MondayItem → MondayItem)
    (tickets : List HubSpotTicket) (items : List MondayItem)
    (hupd : ∀ it, (upd it).name = it.name)
    (t : HubSpotTicket) (ht : t ∈ tickets) (s : String)
    (hs : (ticketDataOf t).subject = some s) :
    (mondayMapGet (passTargetAfter fm upd tickets items) s).isSome := by
  unfold mondayMapGet
  cases hl : mondayMapLookup items (ticketDataOf t).subject with
  | some it =>
    rw [hs] at hl
    have hl2 : mapGetBy (fun item : MondayItem => some item.name) items s = some it := hl
    have hm := mapGetBy_eq_some (fun item => some item.name) s items it hl2
    have hname : it.name = s := Option.some_injective _ hm.2
    have hmem : upd it ∈ passTargetAfter fm upd tickets items :=
      List.mem_append_left _ (List.mem_map_of_mem upd hm.1)
    exact mapGetBy_isSome_of_mem _ s _ (upd it) hmem (by rw [hupd it, hname])
  | none =>
    have hfilter : t ∈ tickets.filter
        (fun t => (mondayMapLookup items (ticketDataOf t).subject).isNone) := by
      rw [List.mem_filter]
      exact ⟨ht, by rw [hl]; rfl⟩
    have hmem : mkCreatedItem fm (ticketDataOf t) "" ∈ passTargetAfter fm upd tickets items :=
      List.mem_append_right _ (List.mem_map_of_mem _ hfilter)
    refine mapGetBy_isSome_of_mem _ s _ _ hmem ?_
    show some (mkCreatedItem fm (ticketDataOf t) "").name = some s
    simp [mkCreatedItem, hs, optStr]

/-- Claim C6: running the same HubSpot → Monday pass again, when the target
snapshot reflects exactly the changes of the first pass (updates can change
column values but not names or ids; one new item per unmatched ticket), yields
zero Create actions — no identity key that was created or matched in the first
pass is created again — and the same update-field-set decision for every
record: the field set is again exactly `mondayUpdateData` of the unchanged
source record (matched records update with it when non-empty, skip when
empty). -/
theorem second_pass_idempotent (rules : FieldRules) (fm : FieldMapping)
    (upd : MondayItem → MondayItem) (tickets : List HubSpotTicket) (items : List MondayItem)
    (hupd : ∀ it, (upd it).name = it.name)
    (hsubj : ∀ t ∈ tickets, (ticketDataOf t).subject.isSome = true) :
    (∀ a ∈ hubspotToMondayPlan rules tickets (passTargetAfter fm upd tickets items),
        ∀ d, a ≠ PlanAction.createItem d) ∧
    (∀ t ∈ tickets, mondayUpdateData rules (ticketDataOf t) ≠ [] →
        ∃ tid, planTicket rules (passTargetAfter fm upd tickets items) t =
          PlanAction.updateItem tid (mondayUpdateData rules (ticketDataOf t))) ∧
    (∀ t ∈ tickets, mondayUpdateData rules (ticketDataOf t) = [] →
        planTicket rules (passTargetAfter fm upd tickets items) t =
          PlanAction.skip (ticketDataOf t).subject) := by
  have hlook : ∀ t ∈ tickets, ∃ it,
      mondayMapLookup (passTargetAfter fm upd tickets items) (ticketDataOf t).subject =
        some it := by
    intro t ht
    rcases Option.isSome_iff_exists.mp (hsubj t ht) with ⟨s, hs⟩
    have hsome := passTargetAfter_lookup_isSome fm upd tickets items hupd t ht s hs
    rw [hs]
    simpa [mondayMapLookup] using Option.isSome_iff_exists.mp hsome
  refine ⟨?_, ?_, ?_⟩
  · intro a ha d had
    rcases List.mem_map.mp ha with ⟨t, ht, rfl⟩
    rcases hlook t ht with ⟨it, hit⟩
    rcases planTicket_eq rules (passTargetAfter fm upd tickets items) t with
      ⟨hn, _⟩ | ⟨it2, _, ⟨_, hp⟩ | ⟨_, hp⟩⟩
    · rw [hn] at hit; cases hit
    · rw [hp] at had; cases had
    · rw [hp] at had; cases had
  · intro t ht hne
    rcases hlook t ht with ⟨it, hit⟩
    rcases planTicket_eq rules (passTargetAfter fm upd tickets items) t with
      ⟨hn, _⟩ | ⟨it2, _, ⟨_, hp⟩ | ⟨hnil, _⟩⟩
    · rw [hn] at hit; cases hit
    · exact ⟨it2.id, hp⟩
    · exact absurd hnil hne
  · intro t ht hnil
    rcases hlook t ht with ⟨it, hit⟩
    rcases planTicket_eq rules (passTargetAfter fm upd tickets items) t with
      ⟨hn, _⟩ | ⟨it2, _, ⟨hne, _⟩ | ⟨_, hp⟩⟩
    · rw [hn] at hit; cases hit
    · exact absurd hnil hne
    · exact hp

/-- Witness for C6: one ticket, empty board: after the first pass created the
item, the second pass matches it and emits an update (not a create) with the
same field set. -/
theorem second_pass_idempotent_witness :
    ∃ tid, planTicket defaultFieldRules
        (passTargetAfter defaultFieldMapping id [ticketA] []) ticketA =
      PlanAction.updateItem tid (mondayUpdateData defaultFieldRules (ticketDataOf ticketA)) :=
  (second_pass_idempotent defaultFieldRules defaultFieldMapping id [ticketA] []
      (fun _ => rfl) (by decide)).2.1 ticketA (by decide) (by decide)

end HubSpotMondaySync
